import Mathlib

/-!
Shallow embedding of the `rand_pwd` key generator (src/src/lib.rs).

The `RandKey` struct and its operations are translated directly from the
Rust source.  `BigUint` counts are embedded as `Nat` (arbitrary-precision
non-negative integers); pool entries (one-ASCII-character `String`s in the
source) are embedded as `Char`; the generated key is a `List Char`.
Mutating methods that return `Result<(), GenError>` become functions
`RandKey → … → RandKey × Except GenError Unit`, returning the state after
the call together with the result, so that mutation-before-error is
captured faithfully.

Helpers that live in the crate's `utils`/`prelude` modules (not among the
given sources) are modelled from the spec and marked as such in their doc
comments.  Randomness is modelled by parameters: `ridx` stands for the
index draws of `_RAND_IDX` (spec 4.3: a chunk of size `c` draws `c`
indices in `[0, pool.len())`), and `shuffle` stands for the final
`slice::shuffle` (spec 4.5: an arbitrary permutation).
-/

namespace RandPwd

/-- Rust `char::is_ascii`: code point below 128. -/
def is_ascii (c : Char) : Bool := decide (c.toNat < 128)

/-- Rust `char::is_ascii_alphabetic`: `A`-`Z` or `a`-`z`. -/
def is_ascii_alphabetic (c : Char) : Bool :=
  decide ((65 ≤ c.toNat ∧ c.toNat ≤ 90) ∨ (97 ≤ c.toNat ∧ c.toNat ≤ 122))

/-- Rust `char::is_ascii_punctuation`: the four ASCII punctuation ranges. -/
def is_ascii_punctuation (c : Char) : Bool :=
  decide ((33 ≤ c.toNat ∧ c.toNat ≤ 47) ∨ (58 ≤ c.toNat ∧ c.toNat ≤ 64) ∨
          (91 ≤ c.toNat ∧ c.toNat ≤ 96) ∨ (123 ≤ c.toNat ∧ c.toNat ≤ 126))

/-- Rust `char::is_ascii_digit`: `0`-`9`. -/
def is_ascii_digit (c : Char) : Bool := decide (48 ≤ c.toNat ∧ c.toNat ≤ 57)

/-- Modelled from the spec: `utils::check_ascii` is not among the given
sources; per spec 4.1 non-ASCII input is rejected at the boundary, so it
tests that every supplied character is ASCII. -/
def check_ascii (items : List Char) : Bool := items.all is_ascii

/-- Modelled from the spec: `utils::group` is not among the given sources;
per spec 4.1 it partitions the given characters into the three classes by
predicate, in the fixed order letters, punctuation, digits (the same
classification `replace_data` performs inline in lib.rs). -/
def group (val : List Char) : List (List Char) :=
  [val.filter is_ascii_alphabetic, val.filter is_ascii_punctuation,
   val.filter is_ascii_digit]

/-- Modelled from the spec: `prelude::AsBiguint::as_biguint` is not among
the given sources; per spec 1 and 3 it parses decimal text to an
arbitrary-precision non-negative integer and fails on malformed input. -/
def as_biguint (s : String) : Option Nat :=
  if s.toList.isEmpty || !s.toList.all Char.isDigit then none
  else some (s.toList.foldl (fun a c => 10 * a + (c.toNat - 48)) 0)

/-- Modelled from the spec: `utils::_DATA` (the default pools) is not among
the given sources; spec 8 scenario B uses non-empty "default pools", modelled
here as every ASCII character of each class. -/
def _DATA : List (List Char) := group ((List.range 128).map Char.ofNat)

/-- Modelled from the spec: `utils::_DIV_UNIT` is not among the given
sources; spec 4.2 (UnitChunker): with `q = n / unit` and `r = n % unit`,
produce `q` chunks equal to `unit` followed by one chunk `r` if `r > 0`. -/
def _DIV_UNIT (unit n : Nat) : List Nat :=
  List.replicate (n / unit) unit ++ (if n % unit ≠ 0 then [n % unit] else [])

/-- `enum GenError` (error.rs is not among the given sources; the variants
are those lib.rs and spec 7 use). -/
inductive GenError where
  | InvalidNumber
  | InvalidChar
  | InvalidUnit
  | MissChar
  | DelNonExistValue
  | InconsistentField
deriving DecidableEq

/-- `enum ASCIIExcludeCtrl` from lib.rs. -/
inductive ASCIIExcludeCtrl where
  | Alphabetic
  | Punctuation
  | Digit

/-- `struct RandKey` from lib.rs. -/
structure RandKey where
  ltr_cnt : Nat
  sbl_cnt : Nat
  num_cnt : Nat
  key : List Char
  UNIT : Nat
  DATA : List (List Char)
deriving DecidableEq

/-- `RandKey::check_init`: all three counts parse. -/
def check_init (l s n : String) : Bool :=
  (as_biguint l).isSome && (as_biguint s).isSome && (as_biguint n).isSome

/-- `RandKey::new`: parse the three counts; key empty, UNIT 65535 (`u16::MAX`),
DATA the default pools. -/
def RandKey.new (l s n : String) : Except GenError RandKey :=
  if check_init l s n then
    match as_biguint l, as_biguint s, as_biguint n with
    | some a, some b, some c =>
        .ok { ltr_cnt := a, sbl_cnt := b, num_cnt := c,
              key := [], UNIT := 65535, DATA := _DATA }
    | _, _, _ => .error .InvalidNumber
  else .error .InvalidNumber

/-- `RandKey::data`: the pool selected by class. -/
def data (rk : RandKey) (kind : ASCIIExcludeCtrl) : List Char :=
  match kind with
  | .Alphabetic => rk.DATA.getD 0 []
  | .Punctuation => rk.DATA.getD 1 []
  | .Digit => rk.DATA.getD 2 []

/-- `RandKey::clear_all`: empty every pool in place. -/
def clear_all (rk : RandKey) : RandKey :=
  { rk with DATA := rk.DATA.map (fun _ => []) }

/-- `RandKey::clear`: empty the selected pool in place. -/
def clear (rk : RandKey) (kind : ASCIIExcludeCtrl) : RandKey :=
  match kind with
  | .Alphabetic => { rk with DATA := rk.DATA.set 0 [] }
  | .Punctuation => { rk with DATA := rk.DATA.set 1 [] }
  | .Digit => { rk with DATA := rk.DATA.set 2 [] }

/-- `RandKey::check_data`: fail with `MissChar` when some class has a
nonzero count and an empty pool (lets of the source inlined). -/
def check_data (rk : RandKey) : Except GenError Unit :=
  if !((!decide (rk.ltr_cnt = 0) && (rk.DATA.getD 0 []).isEmpty) ||
       (!decide (rk.sbl_cnt = 0) && (rk.DATA.getD 1 []).isEmpty) ||
       (!decide (rk.num_cnt = 0) && (rk.DATA.getD 2 []).isEmpty)) then
    .ok ()
  else .error .MissChar

/-- Tail of Rust `Vec::dedup_by_key`: `a` is the last retained element; drop
each next element equal to it, otherwise retain it and continue from it. -/
def dedupConsecAux : Char → List Char → List Char
  | _, [] => []
  | a, b :: t => if b = a then dedupConsecAux a t else b :: dedupConsecAux b t

/-- Rust `Vec::dedup_by_key` with key `char as u8` on ASCII data: remove all
but the first of each run of CONSECUTIVE equal elements. -/
def dedupConsec : List Char → List Char
  | [] => []
  | a :: t => a :: dedupConsecAux a t

/-- `RandKey::add_item`: classify the (all-ASCII) input with `group`, append
each class to its pool, then `dedup_by_key` each pool. -/
def add_item (rk : RandKey) (val : List Char) : RandKey × Except GenError Unit :=
  if check_ascii val then
    let v := group val
    let extended := (List.range rk.DATA.length).map
      (fun i => dedupConsec (rk.DATA.getD i [] ++ v.getD i []))
    ({ rk with DATA := extended }, .ok ())
  else (rk, .error .InvalidChar)

/-- `RandKey::del_item`: dedup the (all-ASCII) removal set, require every
requested character to be present somewhere, then drop them from the
concatenated data and regroup. -/
def del_item (rk : RandKey) (items : List Char) : RandKey × Except GenError Unit :=
  let all := rk.DATA.flatten
  if check_ascii items then
    let v := dedupConsec items
    if v.all (fun x => all.contains x) then
      ({ rk with DATA := group (all.filter (fun x => !v.contains x)) }, .ok ())
    else (rk, .error .DelNonExistValue)
  else (rk, .error .InvalidChar)

/-- `RandKey::replace_data`: for all-ASCII input, overwrite `DATA` with the
classified input FIRST, then run `check_data` and return its result. -/
def replace_data (rk : RandKey) (val : List Char) : RandKey × Except GenError Unit :=
  if check_ascii val then
    let rk2 := { rk with DATA := group val }
    (rk2, check_data rk2)
  else (rk, .error .InvalidChar)

/-- `RandKey::set_cnt`: `val.as_biguint().unwrap()` — the parse result is
unwrapped, so a parse failure panics instead of returning an error; the
panic is modelled as `none`. -/
def set_cnt (rk : RandKey) (kind : ASCIIExcludeCtrl) (val : String) : Option RandKey :=
  match as_biguint val with
  | some v =>
      some (match kind with
            | .Alphabetic => { rk with ltr_cnt := v }
            | .Punctuation => { rk with sbl_cnt := v }
            | .Digit => { rk with num_cnt := v })
  | none => none

/-- One chunk of `join`: map each drawn index to its pool character
(`data[*idx]` in the source; in-bounds indices are guaranteed by the
`_RAND_IDX` contract together with validation). -/
def chunkChars (pool : List Char) (idxs : List Nat) : List Char :=
  idxs.map (fun i => pool.getD i ' ')

/-- The chunk strings of one class: `_DIV_UNIT` the count, then for the
`j`-th chunk of size `c` draw `ridx cls j c pool.len` indices into the pool. -/
def classChunks (ridx : Nat → Nat → Nat → Nat → List Nat) (cls unit cnt : Nat)
    (pool : List Char) : List (List Char) :=
  (_DIV_UNIT unit cnt).enum.map
    (fun p => chunkChars pool (ridx cls p.1 p.2 pool.length))

/-- One class's substring of the intermediate key: chunk outputs in chunk
order. -/
def classStr (ridx : Nat → Nat → Nat → Nat → List Nat) (cls unit cnt : Nat)
    (pool : List Char) : List Char :=
  (classChunks ridx cls unit cnt pool).flatten

/-- The intermediate, class-grouped key `PWD` built by `join` before the
shuffle: letters, then punctuation, then digits. -/
def intermediate (ridx : Nat → Nat → Nat → Nat → List Nat) (rk : RandKey) : List Char :=
  classStr ridx 0 rk.UNIT rk.ltr_cnt (rk.DATA.getD 0 []) ++
  classStr ridx 1 rk.UNIT rk.sbl_cnt (rk.DATA.getD 1 []) ++
  classStr ridx 2 rk.UNIT rk.num_cnt (rk.DATA.getD 2 [])

/-- `RandKey::join`: on `check_data` failure return the error with the state
untouched; on success build `PWD`, shuffle it, and store it as the key.
`ridx` models `_RAND_IDX`, `shuffle` models `slice::shuffle`. -/
def join (ridx : Nat → Nat → Nat → Nat → List Nat) (shuffle : List Char → List Char)
    (rk : RandKey) : RandKey × Except GenError Unit :=
  match check_data rk with
  | .ok _ => ({ rk with key := shuffle (intermediate ridx rk) }, .ok ())
  | .error e => (rk, .error e)

/-- Concrete draw function for witnesses: every draw picks index 0. -/
def ridx0 : Nat → Nat → Nat → Nat → List Nat := fun _ _ c _ => List.replicate c 0

/-- Witness state: the result of `RandKey.new "10" "2" "3"`. -/
def rk0 : RandKey :=
  { ltr_cnt := 10, sbl_cnt := 2, num_cnt := 3, key := [], UNIT := 65535, DATA := _DATA }

/-- Witness state with all pools empty (e.g. after `clear_all`). -/
def rkEmpty : RandKey :=
  { ltr_cnt := 10, sbl_cnt := 2, num_cnt := 3, key := [], UNIT := 65535,
    DATA := [[], [], []] }

/-- Witness state of spec scenario A: counts (0,0,2), digit pool `1`,`2`. -/
def rkC : RandKey :=
  { ltr_cnt := 0, sbl_cnt := 0, num_cnt := 2, key := [], UNIT := 65535,
    DATA := [[], [], ['1', '2']] }

/-- Witness state failing validation: counts (10,2,3), only digit pool `1`. -/
def rkBad : RandKey :=
  { ltr_cnt := 10, sbl_cnt := 2, num_cnt := 3, key := [], UNIT := 65535,
    DATA := [[], [], ['1']] }

/-! Helper lemmas. -/

theorem sum_div_unit (u n : Nat) : (_DIV_UNIT u n).sum = n := by
  unfold _DIV_UNIT
  by_cases hr : n % u = 0
  · simp [hr, List.sum_replicate, smul_eq_mul]
    exact Nat.div_mul_cancel (Nat.dvd_of_mod_eq_zero hr)
  · simp [hr, List.sum_replicate, smul_eq_mul]
    rw [Nat.mul_comm]
    exact Nat.div_add_mod n u

theorem div_unit_zero (u : Nat) : _DIV_UNIT u 0 = [] := by
  simp [_DIV_UNIT]

theorem length_classStr (ridx : Nat → Nat → Nat → Nat → List Nat)
    (hr : ∀ cls j c l, (ridx cls j c l).length = c) (cls u cnt : Nat)
    (pool : List Char) : (classStr ridx cls u cnt pool).length = cnt := by
  unfold classStr classChunks
  rw [List.length_flatten, List.map_map]
  have h2 : ((_DIV_UNIT u cnt).enum.map
      (List.length ∘ fun p : Nat × Nat => chunkChars pool (ridx cls p.1 p.2 pool.length)))
      = (_DIV_UNIT u cnt).enum.map Prod.snd :=
    List.map_congr_left (fun p _ => by simp [chunkChars, hr])
  rw [h2, List.enum_map_snd, sum_div_unit]

theorem classStr_zero (ridx : Nat → Nat → Nat → Nat → List Nat) (cls u : Nat)
    (pool : List Char) : classStr ridx cls u 0 pool = [] := by
  simp [classStr, classChunks, div_unit_zero]

theorem mem_classStr (ridx : Nat → Nat → Nat → Nat → List Nat)
    (hb : ∀ cls j c l, 0 < l → ∀ i ∈ ridx cls j c l, i < l)
    (cls u cnt : Nat) (pool : List Char) (hp : 0 < pool.length) :
    ∀ x ∈ classStr ridx cls u cnt pool, x ∈ pool := by
  intro x hx
  unfold classStr classChunks at hx
  rw [List.mem_flatten] at hx
  obtain ⟨chunk, hc, hxc⟩ := hx
  rw [List.mem_map] at hc
  obtain ⟨p, _, rfl⟩ := hc
  unfold chunkChars at hxc
  rw [List.mem_map] at hxc
  obtain ⟨i, hi, rfl⟩ := hxc
  have hlt := hb cls p.1 p.2 pool.length hp i hi
  rw [List.getD_eq_getElem pool ' ' hlt]
  exact List.getElem_mem hlt

theorem countP_classStr_all (ridx : Nat → Nat → Nat → Nat → List Nat)
    (p : Char → Bool)
    (hr : ∀ cls j c l, (ridx cls j c l).length = c)
    (hb : ∀ cls j c l, 0 < l → ∀ i ∈ ridx cls j c l, i < l)
    (cls u cnt : Nat) (pool : List Char) (hp : cnt ≠ 0 → 0 < pool.length)
    (hall : ∀ x ∈ pool, p x = true) :
    (classStr ridx cls u cnt pool).countP p = cnt := by
  by_cases hc : cnt = 0
  · subst hc
    rw [classStr_zero]
    rfl
  · have h1 : (classStr ridx cls u cnt pool).countP p
        = (classStr ridx cls u cnt pool).length :=
      List.countP_eq_length.2
        (fun x hx => hall x (mem_classStr ridx hb cls u cnt pool (hp hc) x hx))
    rw [h1, length_classStr ridx hr]

theorem countP_classStr_none (ridx : Nat → Nat → Nat → Nat → List Nat)
    (p : Char → Bool)
    (hb : ∀ cls j c l, 0 < l → ∀ i ∈ ridx cls j c l, i < l)
    (cls u cnt : Nat) (pool : List Char) (hp : cnt ≠ 0 → 0 < pool.length)
    (hnone : ∀ x ∈ pool, p x = false) :
    (classStr ridx cls u cnt pool).countP p = 0 := by
  by_cases hc : cnt = 0
  · subst hc
    rw [classStr_zero]
    rfl
  · refine List.countP_eq_zero.2 (fun x hx hpx => ?_)
    have h2 := hnone x (mem_classStr ridx hb cls u cnt pool (hp hc) x hx)
    simp [h2] at hpx

theorem punct_not_alpha (c : Char) (h : is_ascii_punctuation c = true) :
    is_ascii_alphabetic c = false := by
  simp [is_ascii_alphabetic, is_ascii_punctuation, decide_eq_false_iff_not] at *
  omega

theorem digit_not_alpha (c : Char) (h : is_ascii_digit c = true) :
    is_ascii_alphabetic c = false := by
  simp [is_ascii_alphabetic, is_ascii_digit, decide_eq_false_iff_not] at *
  omega

theorem alpha_not_punct (c : Char) (h : is_ascii_alphabetic c = true) :
    is_ascii_punctuation c = false := by
  simp [is_ascii_alphabetic, is_ascii_punctuation, decide_eq_false_iff_not] at *
  omega

theorem digit_not_punct (c : Char) (h : is_ascii_digit c = true) :
    is_ascii_punctuation c = false := by
  simp [is_ascii_digit, is_ascii_punctuation, decide_eq_false_iff_not] at *
  omega

theorem alpha_not_digit (c : Char) (h : is_ascii_alphabetic c = true) :
    is_ascii_digit c = false := by
  simp [is_ascii_alphabetic, is_ascii_digit, decide_eq_false_iff_not] at *
  omega

theorem punct_not_digit (c : Char) (h : is_ascii_punctuation c = true) :
    is_ascii_digit c = false := by
  simp [is_ascii_punctuation, is_ascii_digit, decide_eq_false_iff_not] at *
  omega

theorem check_data_cases (rk : RandKey) :
    (check_data rk = .ok () ∨ check_data rk = .error .MissChar) ∧
    (check_data rk = .ok () ↔
      ((rk.ltr_cnt ≠ 0 → rk.DATA.getD 0 [] ≠ []) ∧
       (rk.sbl_cnt ≠ 0 → rk.DATA.getD 1 [] ≠ []) ∧
       (rk.num_cnt ≠ 0 → rk.DATA.getD 2 [] ≠ []))) := by
  unfold check_data
  split <;> rename_i h <;> simp_all [List.isEmpty_iff] <;> tauto

theorem join_of_ok (ridx : Nat → Nat → Nat → Nat → List Nat)
    (shuffle : List Char → List Char) (rk : RandKey)
    (hok : check_data rk = .ok ()) :
    join ridx shuffle rk = ({ rk with key := shuffle (intermediate ridx rk) }, .ok ()) := by
  unfold join
  rw [hok]

theorem join_of_error (ridx : Nat → Nat → Nat → Nat → List Nat)
    (shuffle : List Char → List Char) (rk : RandKey) (e : GenError)
    (he : check_data rk = .error e) :
    join ridx shuffle rk = (rk, .error e) := by
  unfold join
  rw [he]

/-! Claim theorems. -/

/-- C5: validation (`check_data`) fails with `MissChar` if and only if some
class has a nonzero requested count and an empty pool, and succeeds whenever
every class with nonzero count has a non-empty pool (zero-count classes may
have empty pools). -/
theorem check_data_missing_character_iff (rk : RandKey) :
    (check_data rk = .error .MissChar ↔
      ((rk.ltr_cnt ≠ 0 ∧ rk.DATA.getD 0 [] = []) ∨
       (rk.sbl_cnt ≠ 0 ∧ rk.DATA.getD 1 [] = []) ∨
       (rk.num_cnt ≠ 0 ∧ rk.DATA.getD 2 [] = []))) ∧
    (check_data rk = .ok () ↔
      ((rk.ltr_cnt ≠ 0 → rk.DATA.getD 0 [] ≠ []) ∧
       (rk.sbl_cnt ≠ 0 → rk.DATA.getD 1 [] ≠ []) ∧
       (rk.num_cnt ≠ 0 → rk.DATA.getD 2 [] ≠ []))) := by
  obtain ⟨hcase, hok⟩ := check_data_cases rk
  refine ⟨?_, hok⟩
  constructor
  · intro he
    by_contra hn
    push_neg at hn
    have h2 := hok.2 ⟨fun h => (hn.1 h), fun h => (hn.2.1 h), fun h => (hn.2.2 h)⟩
    rw [h2] at he
    cases he
  · intro h
    rcases hcase with hc | hc
    · exfalso
      obtain ⟨h0, h1, h2⟩ := hok.1 hc
      rcases h with ⟨ha, hb⟩ | ⟨ha, hb⟩ | ⟨ha, hb⟩
      · exact h0 ha hb
      · exact h1 ha hb
      · exact h2 ha hb
    · exact hc

/-- C7: `join` either fails validation, returning precisely the
`MissChar` error with the whole previous state (key included) untouched, or
fully succeeds, replacing the key wholesale with the shuffled intermediate
string and leaving the rest of the state as it was. -/
theorem join_atomicity (ridx : Nat → Nat → Nat → Nat → List Nat)
    (shuffle : List Char → List Char) (rk : RandKey) :
    (∀ e, check_data rk = .error e →
        e = .MissChar ∧ join ridx shuffle rk = (rk, .error .MissChar)) ∧
    (check_data rk = .ok () →
        join ridx shuffle rk
          = ({ rk with key := shuffle (intermediate ridx rk) }, .ok ())) := by
  constructor
  · intro e he
    have hm : e = GenError.MissChar := by
      rcases (check_data_cases rk).1 with hc | hc <;> rw [hc] at he
      · cases he
      · injection he with h2
        rw [h2]
    subst hm
    exact ⟨rfl, join_of_error ridx shuffle rk _ he⟩
  · exact join_of_ok ridx shuffle rk

/-- C10: `join` modifies only the key field — whether it succeeds or fails,
the three class counts, `UNIT` and the three class pools are identical
before and after the call. -/
theorem join_frame (ridx : Nat → Nat → Nat → Nat → List Nat)
    (shuffle : List Char → List Char) (rk : RandKey) :
    ((join ridx shuffle rk).1.ltr_cnt = rk.ltr_cnt ∧
     (join ridx shuffle rk).1.sbl_cnt = rk.sbl_cnt ∧
     (join ridx shuffle rk).1.num_cnt = rk.num_cnt) ∧
    (join ridx shuffle rk).1.UNIT = rk.UNIT ∧
    (join ridx shuffle rk).1.DATA = rk.DATA := by
  unfold join
  split <;> simp

/-- C3 counterexample: starting from `RandKey.new "10" "2" "3"`,
`replace_data ["1"]` returns the `MissChar` error yet the pools are NOT
preserved — `DATA` has already been overwritten with the classified input. -/
theorem replace_data_cex :
    (replace_data rk0 ['1']).2 = Except.error GenError.MissChar ∧
    (replace_data rk0 ['1']).1.DATA ≠ rk0.DATA := by
  refine ⟨rfl, ?_⟩
  decide

/-- C3 amended: on an `InvalidChar` error (non-ASCII input) `replace_data`
leaves the state unchanged, but on a `MissChar` validation error the pools
have already been replaced wholesale with the classified input. -/
theorem replace_data_error_state (rk : RandKey) (val : List Char) :
    ((replace_data rk val).2 = .error .InvalidChar → (replace_data rk val).1 = rk) ∧
    ((replace_data rk val).2 = .error .MissChar →
        (replace_data rk val).1 = { rk with DATA := group val }) := by
  by_cases h : check_ascii val = true
  · have h2 : replace_data rk val
        = ({ rk with DATA := group val }, check_data { rk with DATA := group val }) := by
      unfold replace_data
      rw [if_pos h]
    rw [h2]
    constructor
    · intro hiv
      exfalso
      rcases (check_data_cases { rk with DATA := group val }).1 with hc | hc <;>
        rw [hc] at hiv
      · cases hiv
      · injection hiv with h3
        cases h3
    · intro _
      rfl
  · have h2 : replace_data rk val = (rk, .error .InvalidChar) := by
      unfold replace_data
      rw [if_neg h]
    rw [h2]
    constructor
    · intro _
      rfl
    · intro hm
      injection hm with h3
      cases h3

/-- C4 (code bug): `add_item` only removes CONSECUTIVE duplicates
(`Vec::dedup_by_key`), so starting from empty pools, adding `a`,`b` twice
leaves the letter pool `[a,b,a,b]`: re-adding is not idempotent and a pool
holds duplicate characters after a successful `add_item`. -/
theorem add_item_dedup_bug :
    (add_item rkEmpty ['a', 'b']).1.DATA = [['a', 'b'], [], []] ∧
    (add_item (add_item rkEmpty ['a', 'b']).1 ['a', 'b']).1.DATA
      = [['a', 'b', 'a', 'b'], [], []] ∧
    (add_item (add_item rkEmpty ['a', 'b']).1 ['a', 'b']).1.DATA
      ≠ (add_item rkEmpty ['a', 'b']).1.DATA := by
  refine ⟨rfl, rfl, ?_⟩
  decide

/-- C8: `set_cnt` cannot report failure through its return value — every
string that parses as a non-negative decimal updates the selected count, and
on a non-parsing string (such as `12a`) the internal unwrap panics
(modelled as `none`) instead of returning `InvalidNumber`. -/
theorem set_cnt_unwrap_panics :
    (∀ rk s n, as_biguint s = some n →
        set_cnt rk .Alphabetic s = some { rk with ltr_cnt := n } ∧
        set_cnt rk .Punctuation s = some { rk with sbl_cnt := n } ∧
        set_cnt rk .Digit s = some { rk with num_cnt := n }) ∧
    (as_biguint ("12a") = none ∧
      ∀ rk kind, set_cnt rk kind ("12a") = none) := by
  refine ⟨?_, rfl, ?_⟩
  · intro rk s n h
    refine ⟨?_, ?_, ?_⟩ <;> unfold set_cnt <;> rw [h]
  · intro rk kind
    unfold set_cnt
    rfl

/-- C1: for every `RandKey` whose counts and pools pass validation, a
successful `join` produces a key whose length equals
`ltr_cnt + sbl_cnt + num_cnt`. -/
theorem join_length (ridx : Nat → Nat → Nat → Nat → List Nat)
    (shuffle : List Char → List Char)
    (hr : ∀ cls j c l, (ridx cls j c l).length = c)
    (hs : ∀ l, (shuffle l).Perm l)
    (rk : RandKey) (hok : check_data rk = .ok ()) :
    (join ridx shuffle rk).2 = .ok () ∧
    (join ridx shuffle rk).1.key.length = rk.ltr_cnt + rk.sbl_cnt + rk.num_cnt := by
  rw [join_of_ok ridx shuffle rk hok]
  refine ⟨rfl, ?_⟩
  show (shuffle (intermediate ridx rk)).length = _
  rw [(hs (intermediate ridx rk)).length_eq]
  unfold intermediate
  rw [List.length_append, List.length_append,
      length_classStr ridx hr, length_classStr ridx hr, length_classStr ridx hr]

/-- C1 witness: spec scenario A state (counts (0,0,2), digit pool 1,2) with
concrete draws and identity shuffle. -/
theorem join_length_witness :
    (join ridx0 id rkC).2 = .ok () ∧
    (join ridx0 id rkC).1.key.length = rkC.ltr_cnt + rkC.sbl_cnt + rkC.num_cnt :=
  join_length ridx0 id (fun _ _ c _ => List.length_replicate c 0)
    (fun l => List.Perm.refl l) rkC (by rfl)

/-- C6: the shuffle step of `join` is a pure permutation — the multiset of
characters of the intermediate class-grouped string equals the multiset of
characters of the final key, with no character introduced, dropped or
duplicated. -/
theorem join_shuffle_multiset (ridx : Nat → Nat → Nat → Nat → List Nat)
    (shuffle : List Char → List Char) (hs : ∀ l, (shuffle l).Perm l)
    (rk : RandKey) (hok : check_data rk = .ok ()) :
    Multiset.ofList (join ridx shuffle rk).1.key
      = Multiset.ofList (intermediate ridx rk) := by
  rw [join_of_ok ridx shuffle rk hok]
  exact Multiset.coe_eq_coe.2 (hs (intermediate ridx rk))

/-- C6 witness at the scenario-A state with identity shuffle. -/
theorem join_shuffle_multiset_witness :
    Multiset.ofList (join ridx0 id rkC).1.key
      = Multiset.ofList (intermediate ridx0 rkC) :=
  join_shuffle_multiset ridx0 id (fun l => List.Perm.refl l) rkC (by rfl)

/-- Pools are class-pure: pool 0 holds only letters, pool 1 only ASCII
punctuation, pool 2 only digits — the invariant `group` establishes. -/
def poolsPure (rk : RandKey) : Prop :=
  (∀ x ∈ rk.DATA.getD 0 [], is_ascii_alphabetic x = true) ∧
  (∀ x ∈ rk.DATA.getD 1 [], is_ascii_punctuation x = true) ∧
  (∀ x ∈ rk.DATA.getD 2 [], is_ascii_digit x = true)

/-- C2: after a successful `join`, every character of the key belongs to the
pool of its ASCII class, and for each class the number of characters of that
class in the key equals the requested count for that class. -/
theorem join_composition (ridx : Nat → Nat → Nat → Nat → List Nat)
    (shuffle : List Char → List Char)
    (hr : ∀ cls j c l, (ridx cls j c l).length = c)
    (hb : ∀ cls j c l, 0 < l → ∀ i ∈ ridx cls j c l, i < l)
    (hs : ∀ l, (shuffle l).Perm l)
    (rk : RandKey) (hok : check_data rk = .ok ()) (hpure : poolsPure rk) :
    (∀ x ∈ (join ridx shuffle rk).1.key,
        (is_ascii_alphabetic x = true ∧ x ∈ rk.DATA.getD 0 []) ∨
        (is_ascii_punctuation x = true ∧ x ∈ rk.DATA.getD 1 []) ∨
        (is_ascii_digit x = true ∧ x ∈ rk.DATA.getD 2 [])) ∧
    ((join ridx shuffle rk).1.key.countP is_ascii_alphabetic = rk.ltr_cnt ∧
     (join ridx shuffle rk).1.key.countP is_ascii_punctuation = rk.sbl_cnt ∧
     (join ridx shuffle rk).1.key.countP is_ascii_digit = rk.num_cnt) := by
  obtain ⟨hp0, hp1, hp2⟩ := hpure
  obtain ⟨h0, h1, h2⟩ := (check_data_cases rk).2.1 hok
  have hl0 : rk.ltr_cnt ≠ 0 → 0 < (rk.DATA.getD 0 []).length :=
    fun h => List.length_pos.2 (h0 h)
  have hl1 : rk.sbl_cnt ≠ 0 → 0 < (rk.DATA.getD 1 []).length :=
    fun h => List.length_pos.2 (h1 h)
  have hl2 : rk.num_cnt ≠ 0 → 0 < (rk.DATA.getD 2 []).length :=
    fun h => List.length_pos.2 (h2 h)
  have hkey : (join ridx shuffle rk).1.key = shuffle (intermediate ridx rk) := by
    rw [join_of_ok ridx shuffle rk hok]
  rw [hkey]
  have hperm := hs (intermediate ridx rk)
  constructor
  · intro x hx
    have hx2 : x ∈ intermediate ridx rk := hperm.mem_iff.1 hx
    unfold intermediate at hx2
    rw [List.mem_append, List.mem_append] at hx2
    rcases hx2 with (hx2 | hx2) | hx2
    · by_cases hc : rk.ltr_cnt = 0
      · rw [hc, classStr_zero] at hx2
        cases hx2
      · have hm := mem_classStr ridx hb 0 rk.UNIT rk.ltr_cnt _ (hl0 hc) x hx2
        exact Or.inl ⟨hp0 x hm, hm⟩
    · by_cases hc : rk.sbl_cnt = 0
      · rw [hc, classStr_zero] at hx2
        cases hx2
      · have hm := mem_classStr ridx hb 1 rk.UNIT rk.sbl_cnt _ (hl1 hc) x hx2
        exact Or.inr (Or.inl ⟨hp1 x hm, hm⟩)
    · by_cases hc : rk.num_cnt = 0
      · rw [hc, classStr_zero] at hx2
        cases hx2
      · have hm := mem_classStr ridx hb 2 rk.UNIT rk.num_cnt _ (hl2 hc) x hx2
        exact Or.inr (Or.inr ⟨hp2 x hm, hm⟩)
  · refine ⟨?_, ?_, ?_⟩
    · rw [hperm.countP_eq]
      unfold intermediate
      rw [List.countP_append, List.countP_append,
          countP_classStr_all ridx is_ascii_alphabetic hr hb 0 rk.UNIT rk.ltr_cnt _ hl0 hp0,
          countP_classStr_none ridx is_ascii_alphabetic hb 1 rk.UNIT rk.sbl_cnt _ hl1
            (fun x hx => punct_not_alpha x (hp1 x hx)),
          countP_classStr_none ridx is_ascii_alphabetic hb 2 rk.UNIT rk.num_cnt _ hl2
            (fun x hx => digit_not_alpha x (hp2 x hx))]
      omega
    · rw [hperm.countP_eq]
      unfold intermediate
      rw [List.countP_append, List.countP_append,
          countP_classStr_none ridx is_ascii_punctuation hb 0 rk.UNIT rk.ltr_cnt _ hl0
            (fun x hx => alpha_not_punct x (hp0 x hx)),
          countP_classStr_all ridx is_ascii_punctuation hr hb 1 rk.UNIT rk.sbl_cnt _ hl1 hp1,
          countP_classStr_none ridx is_ascii_punctuation hb 2 rk.UNIT rk.num_cnt _ hl2
            (fun x hx => digit_not_punct x (hp2 x hx))]
      omega
    · rw [hperm.countP_eq]
      unfold intermediate
      rw [List.countP_append, List.countP_append,
          countP_classStr_none ridx is_ascii_digit hb 0 rk.UNIT rk.ltr_cnt _ hl0
            (fun x hx => alpha_not_digit x (hp0 x hx)),
          countP_classStr_none ridx is_ascii_digit hb 1 rk.UNIT rk.sbl_cnt _ hl1
            (fun x hx => punct_not_digit x (hp1 x hx)),
          countP_classStr_all ridx is_ascii_digit hr hb 2 rk.UNIT rk.num_cnt _ hl2 hp2]
      omega

/-- C2 witness at the scenario-A state with concrete draws and identity
shuffle. -/
theorem join_composition_witness :
    (∀ x ∈ (join ridx0 id rkC).1.key,
        (is_ascii_alphabetic x = true ∧ x ∈ rkC.DATA.getD 0 []) ∨
        (is_ascii_punctuation x = true ∧ x ∈ rkC.DATA.getD 1 []) ∨
        (is_ascii_digit x = true ∧ x ∈ rkC.DATA.getD 2 [])) ∧
    ((join ridx0 id rkC).1.key.countP is_ascii_alphabetic = rkC.ltr_cnt ∧
     (join ridx0 id rkC).1.key.countP is_ascii_punctuation = rkC.sbl_cnt ∧
     (join ridx0 id rkC).1.key.countP is_ascii_digit = rkC.num_cnt) :=
  join_composition ridx0 id (fun _ _ c _ => List.length_replicate c 0)
    (fun _ _ _ l hl i hi => by rw [List.eq_of_mem_replicate hi]; exact hl)
    (fun l => List.Perm.refl l) rkC (by rfl) (by unfold poolsPure; decide)

/-- C9: every operation on `RandKey` keeps `DATA` at exactly three class
pools, so the fixed indices 0, 1, 2 used by `data`, `clear` and `join` are
always in bounds. -/
theorem data_three_pools :
    (∀ l s n rk, RandKey.new l s n = .ok rk → rk.DATA.length = 3) ∧
    (∀ rk : RandKey, rk.DATA.length = 3 →
      (∀ val, (replace_data rk val).1.DATA.length = 3) ∧
      (∀ val, (add_item rk val).1.DATA.length = 3) ∧
      (∀ items, (del_item rk items).1.DATA.length = 3) ∧
      (clear_all rk).DATA.length = 3 ∧
      (∀ kind, (clear rk kind).DATA.length = 3) ∧
      (∀ ridx shuffle, (join ridx shuffle rk).1.DATA.length = 3)) := by
  constructor
  · intro l s n rk h
    unfold RandKey.new at h
    split at h
    · split at h
      · injection h with h2
        subst h2
        rfl
      · cases h
    · cases h
  · intro rk h
    refine ⟨fun val => ?_, fun val => ?_, fun items => ?_, ?_, fun kind => ?_,
            fun ridx shuffle => ?_⟩
    · unfold replace_data
      split
      · rfl
      · exact h
    · unfold add_item
      split
      · simp [h]
      · exact h
    · unfold del_item
      split
      · dsimp only
        split
        · rfl
        · exact h
      · exact h
    · simp [clear_all, h]
    · cases kind <;> simp [clear, h]
    · unfold join
      split <;> simp [h]

end RandPwd
